import Mathlib

/-!
Shallow embedding of the BGP UPDATE-message decode pipeline of the
bgp_monitor repository (src/core/src/update_message.rs, src/core/src/lib.rs,
src/src/parse/attribute.rs, src/src/parse/error.rs), together with theorems
settling the frozen claims about it.

Byte buffers are modelled as List Nat (each element one u8 value read from
the wire). Reads that the Rust bytes crate would panic on (Buf::get_u8 and
friends advancing past the end of the buffer) are modelled by a distinct
panic outcome, so that totality claims can be settled honestly.
-/

namespace BgpMonitor

/-- ErrorKind enum, from src/src/parse/error.rs (identical copy in
src/core/src/lib.rs). -/
inductive ErrorKind where
  | BadMessageLength
  | MalformedAttributeList
  | AttributeLengthErr
  | InvalidOrigin
  | MalformedAsPath
  | OptionalAttributeError
  | InvalidNetworkField
  | Other
deriving DecidableEq

/-- Error struct: a kind plus an optional diagnostic byte snapshot. -/
structure Error where
  kind : ErrorKind
  data : Option (List Nat)
deriving DecidableEq

/-- ErrorKind::with_bytes from src/src/parse/error.rs: attaches the bytes as
diagnostic data only for the four kinds listed in its match; every other
kind gets data = none. -/
def ErrorKind.with_bytes (k : ErrorKind) (bytes : List Nat) : Error :=
  let d : Option (List Nat) :=
    match k with
    | .AttributeLengthErr => some bytes
    | .MalformedAsPath => some bytes
    | .InvalidOrigin => some bytes
    | .OptionalAttributeError => some bytes
    | _ => none
  { kind := k, data := d }

/-- ErrorKind::as_err from src/src/parse/error.rs: never attaches data. -/
def ErrorKind.as_err (k : ErrorKind) : Error :=
  { kind := k, data := none }

/-- Outcome of a decode step over a byte buffer: success with a value and
the remaining (not yet consumed) bytes, a decode error of type ε, or a Rust
panic (the bytes crate aborts when a get_u8 / get_u16 / get_u32 call would
advance past the end of the buffer). -/
inductive Res (ε α : Type) where
  | ok : α → List Nat → Res ε α
  | err : ε → Res ε α
  | panic : Res ε α
deriving DecidableEq

/-- IpAddrPrefix struct from src/core/src/update_message.rs. The Rust field
named prefix is called prefixBytes here. -/
structure IpAddrPrefix where
  length : Nat
  prefixBytes : List Nat
deriving DecidableEq

/-- Vec::resize(n, 0): truncate to n elements or pad with zeros up to n. -/
def listResize (l : List Nat) (n : Nat) : List Nat :=
  l.take n ++ List.replicate (n - l.length) 0

/-- The in-place masking of the last copied byte in decode_stream: if index
i is in bounds, replace element i with its bitwise AND against
0xff << (8 - rem) truncated to u8 (this is the if-let Some(last_byte)
branch; out of bounds leaves the list unchanged, as get_mut returning None
does). -/
def maskLast (l : List Nat) (i : Nat) (rem : Nat) : List Nat :=
  match l.get? i with
  | some b => l.set i (b &&& ((0xff <<< (8 - rem)) % 256))
  | none => l

/-- The while let loop of IpAddrPrefix::decode_stream. The error value
e is the one captured before the loop (InvalidNetworkField with a clone of
the buffer as it stood at entry). The check data.len() < 1 at the top of
the Rust loop body is unreachable (the loop guard ensures non-emptiness)
and corresponds to no branch here. The fuel argument exists only to make
the recursion structural: every iteration consumes at least the bit_len
byte, so fuel equal to the buffer length (what decode_stream passes) never
runs out; the out-of-fuel branch is unreachable. -/
def decodeStreamLoop (e : Error) (addr_len : Nat) : Nat → List Nat → Res Error (List IpAddrPrefix)
  | _, [] => .ok [] []
  | 0, _ :: _ => .panic
  | fuel + 1, bit_len :: rest =>
    let byte_len := (bit_len + 7) / 8
    if rest.length < byte_len then .err e
    else if addr_len * 8 < bit_len then .err e
    else
      let pb0 := listResize (rest.take byte_len) addr_len
      let pb := if bit_len % 8 ≠ 0 then maskLast pb0 (byte_len - 1) (bit_len % 8) else pb0
      match decodeStreamLoop e addr_len fuel (rest.drop byte_len) with
      | .ok ps r => .ok ({ length := bit_len, prefixBytes := pb } :: ps) r
      | .err e2 => .err e2
      | .panic => .panic

/-- IpAddrPrefix::decode_stream from src/core/src/update_message.rs.
addr_len is modelled as Nat (Rust declares it u8 and only ever calls with
4; for addr_len above 31 the Rust u8 product addr_len * 8 would overflow,
a case no caller exercises). -/
def IpAddrPrefix.decode_stream (data : List Nat) (addr_len : Nat) : Res Error (List IpAddrPrefix) :=
  decodeStreamLoop (ErrorKind.InvalidNetworkField.with_bytes data) addr_len data.length data

/-- Big-endian u16 read (Buf::get_u16); none when the buffer is too short,
which in Rust is a panic at the call site. -/
def getU16 : List Nat → Option (Nat × List Nat)
  | b1 :: b2 :: rest => some (b1 * 256 + b2, rest)
  | _ => none

/-- Big-endian u32 read (Buf::get_u32); none when the buffer is too short. -/
def getU32 : List Nat → Option (Nat × List Nat)
  | a :: b :: c :: d :: rest => some (a * 16777216 + b * 65536 + c * 256 + d, rest)
  | _ => none

/-- Reads count big-endian u32 values (the for loop over data.get_u32() in
AsPath::try_decode). -/
def getU32s : Nat → List Nat → Option (List Nat × List Nat)
  | 0, data => some ([], data)
  | n + 1, data =>
    match getU32 data with
    | some (x, rest) =>
      match getU32s n rest with
      | some (xs, r) => some (x :: xs, r)
      | none => none
    | none => none

/-- PathAttributeFlags struct from src/src/parse/attribute.rs. The Rust
field named partial is called partialFlag here. -/
structure PathAttributeFlags where
  optional : Bool
  transitive : Bool
  partialFlag : Bool
  extended_length : Bool
deriving DecidableEq

/-- AttributeType enum from src/src/parse/attribute.rs. -/
inductive AttributeType where
  | Origin
  | AsPath
  | NextHop
  | MultiExitDisc
  | LocalPref
  | AtomicAggregate
  | Aggregator
  | Communities
  | Unknown (code : Nat)
deriving DecidableEq

/-- impl From of u8 for AttributeType. -/
def AttributeType.ofU8 (value : Nat) : AttributeType :=
  match value with
  | 1 => .Origin
  | 2 => .AsPath
  | 3 => .NextHop
  | 4 => .MultiExitDisc
  | 5 => .LocalPref
  | 6 => .AtomicAggregate
  | 7 => .Aggregator
  | 8 => .Communities
  | _ => .Unknown value

/-- OriginType enum. -/
inductive OriginType where
  | Igp
  | Egp
  | Incomplete
deriving DecidableEq

/-- Origin attribute value struct. -/
structure Origin where
  origin_type : OriginType
deriving DecidableEq

/-- AsPathSegmentType enum. -/
inductive AsPathSegmentType where
  | AsSet
  | AsSequence
deriving DecidableEq

/-- AsPathSegment struct; asns holds u32 values. -/
structure AsPathSegment where
  segment_type : AsPathSegmentType
  asns : List Nat
deriving DecidableEq

/-- AsPath attribute value struct. -/
structure AsPath where
  segments : List AsPathSegment
deriving DecidableEq

/-- NextHop attribute value struct; ip is the u32 the Rust code feeds to
Ipv4Addr::from_bits. -/
structure NextHop where
  ip : Nat
deriving DecidableEq

/-- MultiExitDisc attribute value struct. -/
structure MultiExitDisc where
  med : Nat
deriving DecidableEq

/-- LocalPref attribute value struct. -/
structure LocalPref where
  pref : Nat
deriving DecidableEq

/-- Aggregator attribute value struct. -/
structure Aggregator where
  asn : Nat
  ip : Nat
deriving DecidableEq

/-- Community struct: a pair of u16 halves. -/
structure Community where
  asn : Nat
  value : Nat
deriving DecidableEq

/-- Communities attribute value struct. -/
structure Communities where
  communities : List Community
deriving DecidableEq

/-- AttributeValue enum from src/src/parse/attribute.rs: one variant per
known attribute type plus Unknown carrying the raw value bytes. -/
inductive AttributeValue where
  | Origin (v : BgpMonitor.Origin)
  | AsPath (v : BgpMonitor.AsPath)
  | NextHop (v : BgpMonitor.NextHop)
  | MultiExitDisc (v : BgpMonitor.MultiExitDisc)
  | LocalPref (v : BgpMonitor.LocalPref)
  | AtomicAggregate
  | Aggregator (v : BgpMonitor.Aggregator)
  | Communities (v : BgpMonitor.Communities)
  | Unknown (raw : List Nat)
deriving DecidableEq

/-- PathAttribute struct. -/
structure PathAttribute where
  flags : PathAttributeFlags
  type_code : AttributeType
  value : AttributeValue
deriving DecidableEq

/-- Origin::try_decode: reads one byte with get_u8 (a panic on an empty
slice) and maps 0, 1, 2 to the three origin types; any other byte value is
InvalidOrigin. No check that the slice held exactly one byte. -/
def Origin.try_decode : List Nat → Res ErrorKind Origin
  | [] => .panic
  | b :: rest =>
    match b with
    | 0 => .ok { origin_type := .Igp } rest
    | 1 => .ok { origin_type := .Egp } rest
    | 2 => .ok { origin_type := .Incomplete } rest
    | _ => .err .InvalidOrigin

/-- The while loop of AsPath::try_decode. Each iteration reads a segment
type byte, a count byte (get_u8, a panic when the buffer is empty), checks
that count * 4 bytes remain, and reads count u32 ASNs. Fuel makes the
recursion structural; the caller passes the buffer length and each
iteration consumes at least one byte, so the out-of-fuel branch is
unreachable. -/
def AsPath.decodeSegmentsLoop : Nat → List Nat → Res ErrorKind (List AsPathSegment)
  | _, [] => .ok [] []
  | 0, _ :: _ => .panic
  | fuel + 1, seg_type_val :: rest =>
    let seg_type : Option AsPathSegmentType :=
      match seg_type_val with
      | 1 => some .AsSet
      | 2 => some .AsSequence
      | _ => none
    match seg_type with
    | none => .err .MalformedAsPath
    | some st =>
      match rest with
      | [] => .panic
      | count :: rest2 =>
        if rest2.length < count * 4 then .err .MalformedAsPath
        else
          match getU32s count rest2 with
          | none => .panic
          | some (asns, rest3) =>
            match AsPath.decodeSegmentsLoop fuel rest3 with
            | .ok segs r => .ok ({ segment_type := st, asns := asns } :: segs) r
            | .err k => .err k
            | .panic => .panic

/-- AsPath::try_decode. -/
def AsPath.try_decode (data : List Nat) : Res ErrorKind AsPath :=
  match AsPath.decodeSegmentsLoop data.length data with
  | .ok segs r => .ok { segments := segs } r
  | .err k => .err k
  | .panic => .panic

/-- NextHop::try_decode: at least 4 bytes required, first 4 consumed. -/
def NextHop.try_decode (data : List Nat) : Res ErrorKind NextHop :=
  if data.length < 4 then .err .AttributeLengthErr
  else
    match getU32 data with
    | some (ip, rest) => .ok { ip := ip } rest
    | none => .panic

/-- MultiExitDisc::try_decode: exactly 4 bytes required. -/
def MultiExitDisc.try_decode (data : List Nat) : Res ErrorKind MultiExitDisc :=
  if data.length ≠ 4 then .err .AttributeLengthErr
  else
    match getU32 data with
    | some (med, rest) => .ok { med := med } rest
    | none => .panic

/-- LocalPref::try_decode: at least 4 bytes required, first 4 consumed. -/
def LocalPref.try_decode (data : List Nat) : Res ErrorKind LocalPref :=
  if data.length < 4 then .err .AttributeLengthErr
  else
    match getU32 data with
    | some (pref, rest) => .ok { pref := pref } rest
    | none => .panic

/-- Aggregator::try_decode: length 8 gives a u32 ASN, length 6 a u16 ASN,
anything else is AttributeLengthErr; then a u32 IPv4 address. -/
def Aggregator.try_decode (data : List Nat) : Res ErrorKind Aggregator :=
  if data.length = 8 then
    match getU32 data with
    | some (asn, r) =>
      match getU32 r with
      | some (ip, r2) => .ok { asn := asn, ip := ip } r2
      | none => .panic
    | none => .panic
  else if data.length = 6 then
    match getU16 data with
    | some (asn, r) =>
      match getU32 r with
      | some (ip, r2) => .ok { asn := asn, ip := ip } r2
      | none => .panic
    | none => .panic
  else .err .AttributeLengthErr

/-- The while loop of Communities::try_decode, reading two u16 values per
4-byte group; none when the byte count is not a multiple of 4 (in Rust the
loop would then panic inside get_u16, but the caller checks first). -/
def readCommunities : List Nat → Option (List Community)
  | [] => some []
  | a :: b :: c :: d :: rest =>
    match readCommunities rest with
    | some cs => some ({ asn := a * 256 + b, value := c * 256 + d } :: cs)
    | none => none
  | _ => none

/-- Communities::try_decode: the byte count must be a multiple of 4. -/
def Communities.try_decode (data : List Nat) : Res ErrorKind Communities :=
  if data.length % 4 ≠ 0 then .err .OptionalAttributeError
  else
    match readCommunities data with
    | some cs => .ok { communities := cs } []
    | none => .panic

/-- AttributeValue::try_decode: dispatch on the attribute type to the
per-type grammar; AtomicAggregate requires an empty value slice; Unknown
types keep the raw bytes with no validation. -/
def AttributeValue.try_decode (type_code : AttributeType) (value_data : List Nat) :
    Res ErrorKind AttributeValue :=
  match type_code with
  | .Origin =>
    match Origin.try_decode value_data with
    | .ok v r => .ok (.Origin v) r
    | .err k => .err k
    | .panic => .panic
  | .AsPath =>
    match AsPath.try_decode value_data with
    | .ok v r => .ok (.AsPath v) r
    | .err k => .err k
    | .panic => .panic
  | .NextHop =>
    match NextHop.try_decode value_data with
    | .ok v r => .ok (.NextHop v) r
    | .err k => .err k
    | .panic => .panic
  | .MultiExitDisc =>
    match MultiExitDisc.try_decode value_data with
    | .ok v r => .ok (.MultiExitDisc v) r
    | .err k => .err k
    | .panic => .panic
  | .LocalPref =>
    match LocalPref.try_decode value_data with
    | .ok v r => .ok (.LocalPref v) r
    | .err k => .err k
    | .panic => .panic
  | .AtomicAggregate =>
    if value_data.length > 0 then .err .AttributeLengthErr
    else .ok .AtomicAggregate value_data
  | .Aggregator =>
    match Aggregator.try_decode value_data with
    | .ok v r => .ok (.Aggregator v) r
    | .err k => .err k
    | .panic => .panic
  | .Communities =>
    match Communities.try_decode value_data with
    | .ok v r => .ok (.Communities v) r
    | .err k => .err k
    | .panic => .panic
  | .Unknown _ => .ok (.Unknown value_data) value_data

/-- PathAttribute::try_decode from src/src/parse/attribute.rs: snapshot the
whole remaining buffer, read the flags byte and the type byte (get_u8, a
panic on a buffer shorter than 2 bytes), read the 1- or 2-byte length
field (a checked read: too few bytes is AttributeLengthErr with the
snapshot), check the declared length against the remaining bytes, slice
the value, dispatch, and rewrap any grammar ErrorKind with the snapshot. -/
def PathAttribute.try_decode (data : List Nat) : Res Error PathAttribute :=
  let c_data := data
  match data with
  | [] => .panic
  | flags_byte :: rest =>
    let flags : PathAttributeFlags :=
      { optional := (flags_byte &&& 0x80) != 0
        transitive := (flags_byte &&& 0x40) != 0
        partialFlag := (flags_byte &&& 0x20) != 0
        extended_length := (flags_byte &&& 0x10) != 0 }
    match rest with
    | [] => .panic
    | type_code_byte :: rest2 =>
      let attr_type := AttributeType.ofU8 type_code_byte
      let lengthRead : Option (Nat × List Nat) :=
        if flags.extended_length then getU16 rest2
        else
          match rest2 with
          | l :: r => some (l, r)
          | [] => none
      match lengthRead with
      | none => .err (ErrorKind.AttributeLengthErr.with_bytes c_data)
      | some (length, rest3) =>
        if rest3.length < length then .err (ErrorKind.AttributeLengthErr.with_bytes c_data)
        else
          let value_data := rest3.take length
          let remaining := rest3.drop length
          match AttributeValue.try_decode attr_type value_data with
          | .ok value _ => .ok { flags := flags, type_code := attr_type, value := value } remaining
          | .err k => .err (k.with_bytes c_data)
          | .panic => .panic

/-- UpdateMessage struct. -/
structure UpdateMessage where
  withdrawn_routes : List IpAddrPrefix
  path_attributes : List PathAttribute
  nlri : List IpAddrPrefix
deriving DecidableEq

/-- The while loop in UpdateMessage::try_decode that decodes attribute
records until the attribute block is empty. Fuel makes the recursion
structural; the caller passes the block length and every successful record
decode consumes at least two bytes, so the out-of-fuel branch is
unreachable. -/
def decodeAttrsLoop : Nat → List Nat → Res Error (List PathAttribute)
  | _, [] => .ok [] []
  | 0, _ :: _ => .panic
  | fuel + 1, b :: bs =>
    match PathAttribute.try_decode (b :: bs) with
    | .ok attr rest =>
      match decodeAttrsLoop fuel rest with
      | .ok attrs r => .ok (attr :: attrs) r
      | .err e => .err e
      | .panic => .panic
    | .err e => .err e
    | .panic => .panic

/-- UpdateMessage::try_decode from src/core/src/update_message.rs: read the
withdrawn-routes length and block, the path-attributes length and block,
then decode every remaining byte as NLRI prefix entries. -/
def UpdateMessage.try_decode (data : List Nat) : Res Error UpdateMessage :=
  match data with
  | [] => .err (ErrorKind.BadMessageLength.with_bytes data)
  | [b] => .err (ErrorKind.BadMessageLength.with_bytes [b])
  | b1 :: b2 :: d1 =>
    let withdrawn_len := b1 * 256 + b2
    let wres : Res Error (List IpAddrPrefix) :=
      if withdrawn_len ≠ 0 then
        if d1.length < withdrawn_len then .err ErrorKind.MalformedAttributeList.as_err
        else IpAddrPrefix.decode_stream (d1.take withdrawn_len) 4
      else .ok [] d1
    match wres with
    | .err e => .err e
    | .panic => .panic
    | .ok withdrawn_routes _ =>
      let d2 := if withdrawn_len ≠ 0 then d1.drop withdrawn_len else d1
      match d2 with
      | [] => .err ErrorKind.MalformedAttributeList.as_err
      | [_] => .err ErrorKind.MalformedAttributeList.as_err
      | a1 :: a2 :: d3 =>
        let attributes_len := a1 * 256 + a2
        if d3.length < attributes_len then .err ErrorKind.MalformedAttributeList.as_err
        else
          let attributes_data := d3.take attributes_len
          let d4 := d3.drop attributes_len
          match decodeAttrsLoop attributes_data.length attributes_data with
          | .err e => .err e
          | .panic => .panic
          | .ok path_attributes _ =>
            match IpAddrPrefix.decode_stream d4 4 with
            | .err e => .err e
            | .panic => .panic
            | .ok nlri rem =>
              .ok { withdrawn_routes := withdrawn_routes,
                    path_attributes := path_attributes,
                    nlri := nlri } rem

/-- Bit i of a byte array under MSB-first numbering: bit 0 is the top bit
of byte 0. This is the bit-position reading the spec uses when it says
every bit at position at least bit_length is zero. Positions past the end
of the array read as 0. -/
def prefixBit (bytes : List Nat) (i : Nat) : Nat :=
  (bytes.getD (i / 8) 0 >>> (7 - i % 8)) &&& 1

/-- The condition of claim C6 on an attribute buffer: the flags and type
bytes are present, the 1- or 2-byte length field (per the extended_length
flag bit 0x10) is present, and the declared length exceeds the bytes
remaining after the length field. -/
def attrDeclaredLengthOverruns : List Nat → Bool
  | f :: _ :: rest =>
    if (f &&& 0x10) != 0 then
      match rest with
      | l1 :: l2 :: rest2 => decide (rest2.length < l1 * 256 + l2)
      | _ => false
    else
      match rest with
      | l :: rest2 => decide (rest2.length < l)
      | _ => false
  | _ => false

/-- with_bytes never attaches data for InvalidNetworkField. -/
theorem with_bytes_invalid_network_field (b : List Nat) :
    ErrorKind.InvalidNetworkField.with_bytes b =
      { kind := .InvalidNetworkField, data := none } := rfl

/-- The prefix-stream loop, run with enough fuel, either succeeds having
consumed the entire buffer or returns exactly the error captured at
entry. -/
theorem decodeStreamLoop_ok_empty_or_err (e : Error) (a : Nat) :
    ∀ (fuel : Nat) (data : List Nat), data.length ≤ fuel →
      (∃ ps, decodeStreamLoop e a fuel data = .ok ps []) ∨
      decodeStreamLoop e a fuel data = .err e := by
  intro fuel
  induction fuel with
  | zero =>
    intro data h
    cases data with
    | nil => exact Or.inl ⟨[], rfl⟩
    | cons b bs => simp at h
  | succ n ih =>
    intro data h
    cases data with
    | nil => exact Or.inl ⟨[], rfl⟩
    | cons bit_len rest =>
      by_cases h1 : rest.length < (bit_len + 7) / 8
      · right
        simp [decodeStreamLoop, h1]
      · by_cases h2 : a * 8 < bit_len
        · right
          simp [decodeStreamLoop, h1, h2]
        · have hlen : (rest.drop ((bit_len + 7) / 8)).length ≤ n := by
            simp only [List.length_drop]
            simp only [List.length_cons] at h
            omega
          rcases ih _ hlen with ⟨ps, hps⟩ | herr
          · left
            simp [decodeStreamLoop, h1, h2, hps]
          · right
            simp [decodeStreamLoop, h1, h2, herr]

/-- Successful decode_stream always reports an empty remaining buffer. -/
theorem decode_stream_ok_remaining_nil (data : List Nat) (a : Nat)
    (ps : List IpAddrPrefix) (rem : List Nat)
    (h : IpAddrPrefix.decode_stream data a = .ok ps rem) : rem = [] := by
  rcases decodeStreamLoop_ok_empty_or_err
      (ErrorKind.InvalidNetworkField.with_bytes data) a data.length data (le_refl _) with
    ⟨ps', hps⟩ | herr
  · have hh := hps.symm.trans h
    injection hh with h1 h2
    exact h2.symm
  · have hh := herr.symm.trans h
    cases hh

/-- Claim C1: for every input buffer and every addr_len, decode_stream
either returns a success in which the input has exactly zero remaining
bytes, or an Error of kind InvalidNetworkField; it never returns a
success leaving undecoded bytes (and, in this model, never panics). -/
theorem decode_stream_consumes_all_or_invalid_network_field
    (data : List Nat) (addr_len : Nat) :
    (∃ ps, IpAddrPrefix.decode_stream data addr_len = .ok ps []) ∨
    (∃ e, IpAddrPrefix.decode_stream data addr_len = .err e ∧
      e.kind = .InvalidNetworkField) := by
  rcases decodeStreamLoop_ok_empty_or_err
      (ErrorKind.InvalidNetworkField.with_bytes data) addr_len data.length data (le_refl _) with
    ⟨ps, hps⟩ | herr
  · exact Or.inl ⟨ps, hps⟩
  · exact Or.inr ⟨_, herr, rfl⟩

/-- Claim C8 counterexample: on the failing buffer [9] (bit_length 9
demands two address bytes, none remain) the returned error carries no
diagnostic data at all, not the remaining buffer [9] the claim requires:
with_bytes drops the bytes for kind InvalidNetworkField. -/
theorem decode_stream_err_carries_no_data_counterexample :
    IpAddrPrefix.decode_stream [9] 4 =
      .err { kind := .InvalidNetworkField, data := none } ∧
    ∀ e, IpAddrPrefix.decode_stream [9] 4 = .err e → e.data ≠ some [9] := by
  refine ⟨by decide, ?_⟩
  intro e he
  have h0 : IpAddrPrefix.decode_stream [9] 4 =
      .err { kind := .InvalidNetworkField, data := none } := by decide
  rw [h0] at he
  cases he
  decide

/-- Claim C8 amended: whenever decode_stream fails, the returned Error has
kind InvalidNetworkField and data none (the buffer snapshot passed to
with_bytes is discarded for this kind). -/
theorem decode_stream_err_is_invalid_network_field_no_data
    (data : List Nat) (addr_len : Nat) (e : Error)
    (h : IpAddrPrefix.decode_stream data addr_len = .err e) :
    e = { kind := .InvalidNetworkField, data := none } := by
  rcases decodeStreamLoop_ok_empty_or_err
      (ErrorKind.InvalidNetworkField.with_bytes data) addr_len data.length data (le_refl _) with
    ⟨ps', hps⟩ | herr
  · have hh := hps.symm.trans h
    cases hh
  · have hh := herr.symm.trans h
    injection hh with h1
    exact h1.symm

/-- Witness for the amended C8 theorem at the concrete failing buffer
[9]. -/
theorem decode_stream_err_no_data_witness :
    ({ kind := .InvalidNetworkField, data := none } : Error) =
      { kind := .InvalidNetworkField, data := none } :=
  decode_stream_err_is_invalid_network_field_no_data [9] 4
    { kind := .InvalidNetworkField, data := none } (by decide)

/-- Claim C10: a prefix entry with bit_length byte 0 consumes exactly that
one byte, emits a Prefix with bit_length 0 and an all-zero address, and a
buffer of n zero bytes decodes to n such default-route prefixes. -/
theorem decode_stream_zero_bit_length (addr_len : Nat) :
    (∀ rest, IpAddrPrefix.decode_stream (0 :: rest) addr_len =
      (match IpAddrPrefix.decode_stream rest addr_len with
        | .ok ps r => .ok ({ length := 0, prefixBytes := List.replicate addr_len 0 } :: ps) r
        | .err e => .err e
        | .panic => .panic)) ∧
    (∀ n, IpAddrPrefix.decode_stream (List.replicate n 0) addr_len =
      .ok (List.replicate n { length := 0, prefixBytes := List.replicate addr_len 0 }) []) := by
  have hstep : ∀ rest, IpAddrPrefix.decode_stream (0 :: rest) addr_len =
      (match IpAddrPrefix.decode_stream rest addr_len with
        | .ok ps r => .ok ({ length := 0, prefixBytes := List.replicate addr_len 0 } :: ps) r
        | .err e => .err e
        | .panic => .panic) := by
    intro rest
    show decodeStreamLoop _ addr_len (rest.length + 1) (0 :: rest) = _
    rw [with_bytes_invalid_network_field]
    simp only [IpAddrPrefix.decode_stream, with_bytes_invalid_network_field]
    simp [decodeStreamLoop, listResize]
  refine ⟨hstep, ?_⟩
  intro n
  induction n with
  | zero => rfl
  | succ m ih =>
    rw [List.replicate_succ, hstep, ih, List.replicate_succ]

/-- Claim C5: with_bytes attaches the buffer as data exactly for the four
diagnostic kinds AttributeLengthErr, MalformedAsPath, InvalidOrigin and
OptionalAttributeError, and none for every other kind; as_err always
produces data none. -/
theorem with_bytes_data_exactly_for_diagnostic_kinds (k : ErrorKind) (b : List Nat) :
    ErrorKind.with_bytes k b =
      (if k = .AttributeLengthErr ∨ k = .MalformedAsPath ∨ k = .InvalidOrigin ∨
          k = .OptionalAttributeError
        then { kind := k, data := some b } else { kind := k, data := none }) ∧
    ErrorKind.as_err k = { kind := k, data := none } := by
  cases k <;> simp [ErrorKind.with_bytes, ErrorKind.as_err]

/-- Claim C7 counterexample: a 2-byte value slice [0, 7] is not of length
1, yet the Origin grammar succeeds on it (reading only the first byte and
leaving the trailing byte unread) instead of failing with InvalidOrigin as
the claim requires. -/
theorem origin_accepts_oversized_slice_counterexample :
    Origin.try_decode [0, 7] = .ok { origin_type := .Igp } [7] ∧
    Origin.try_decode [0, 7] ≠ .err ErrorKind.InvalidOrigin := by decide

/-- Claim C7 amended: the Origin grammar looks only at the first byte of
the slice: 0, 1, 2 decode to Igp, Egp, Incomplete whatever follows (extra
bytes are left unread and unvalidated), any other first byte is
InvalidOrigin, and the empty slice is an out-of-bounds get_u8 (panic), not
an error. -/
theorem origin_decode_reads_first_byte_only :
    Origin.try_decode ([] : List Nat) = .panic ∧
    ∀ (b : Nat) (rest : List Nat), Origin.try_decode (b :: rest) =
      (if b = 0 then .ok { origin_type := .Igp } rest
       else if b = 1 then .ok { origin_type := .Egp } rest
       else if b = 2 then .ok { origin_type := .Incomplete } rest
       else .err .InvalidOrigin) := by
  refine ⟨rfl, ?_⟩
  intro b rest
  match b with
  | 0 => rfl
  | 1 => rfl
  | 2 => rfl
  | n + 3 => simp [Origin.try_decode]

/-- Claim C3: the concrete UPDATE body from the spec scenario (withdrawn
routes 10.0.0.0/8 and 192.168.0.0/16, ORIGIN Igp, AS_PATH with one
Sequence segment holding ASN 65537, NEXT_HOP 1.2.3.4 = 16909060,
LOCAL_PREF 100, NLRI 172.16.0.0/16) decodes successfully to exactly those
records in that order with the buffer fully consumed. -/
theorem update_message_decode_full_scenario :
    UpdateMessage.try_decode
      [0x00, 0x05, 0x08, 10, 0x10, 192, 168,
       0x00, 0x1B,
       0x40, 0x01, 0x01, 0x00,
       0x40, 0x02, 0x06, 0x02, 0x01, 0x00, 0x01, 0x00, 0x01,
       0x40, 0x03, 0x04, 1, 2, 3, 4,
       0x40, 0x05, 0x04, 0x00, 0x00, 0x00, 0x64,
       0x10, 172, 16] =
    .ok { withdrawn_routes := [{ length := 8, prefixBytes := [10, 0, 0, 0] },
                               { length := 16, prefixBytes := [192, 168, 0, 0] }],
          path_attributes :=
            [{ flags := { optional := false, transitive := true,
                          partialFlag := false, extended_length := false },
               type_code := .Origin,
               value := .Origin { origin_type := .Igp } },
             { flags := { optional := false, transitive := true,
                          partialFlag := false, extended_length := false },
               type_code := .AsPath,
               value := .AsPath { segments :=
                 [{ segment_type := .AsSequence, asns := [65537] }] } },
             { flags := { optional := false, transitive := true,
                          partialFlag := false, extended_length := false },
               type_code := .NextHop,
               value := .NextHop { ip := 16909060 } },
             { flags := { optional := false, transitive := true,
                          partialFlag := false, extended_length := false },
               type_code := .LocalPref,
               value := .LocalPref { pref := 100 } }],
          nlri := [{ length := 16, prefixBytes := [172, 16, 0, 0] }] } [] := by
  decide

/-- Claim C4: at the UPDATE body [0,0,0,3,0x40,0x01,0x00] (no withdrawn
routes, a 3-byte attribute block holding an Origin attribute with declared
value length 0) the decoder reaches Origin::try_decode with an empty value
slice and its get_u8 call aborts (Rust panic) instead of returning an
Error, refuting the claimed totality. -/
theorem update_message_decode_panics_on_empty_origin_value :
    UpdateMessage.try_decode [0x00, 0x00, 0x00, 0x03, 0x40, 0x01, 0x00] = .panic := by
  decide

/-- Claim C6: whenever the flags, type and length fields of the attribute
record are present but the declared length exceeds the bytes remaining
after the length field, PathAttribute::try_decode fails with
AttributeLengthErr carrying exactly the bytes of the record as the buffer
stood before any field was read. -/
theorem path_attribute_overlong_declared_length_err (data : List Nat)
    (h : attrDeclaredLengthOverruns data = true) :
    PathAttribute.try_decode data =
      .err { kind := .AttributeLengthErr, data := some data } := by
  match data with
  | [] => simp [attrDeclaredLengthOverruns] at h
  | [f] => simp [attrDeclaredLengthOverruns] at h
  | f :: t :: rest =>
    simp only [attrDeclaredLengthOverruns] at h
    cases hext : (f &&& 0x10) != 0 with
    | true =>
      simp only [hext, if_true] at h
      match rest with
      | [] => simp at h
      | [l1] => simp at h
      | l1 :: l2 :: rest2 =>
        have hlt : rest2.length < l1 * 256 + l2 := by
          simpa using h
        simp [PathAttribute.try_decode, hext, getU16, hlt, ErrorKind.with_bytes]
    | false =>
      simp only [hext, Bool.false_eq_true, if_false] at h
      match rest with
      | [] => simp at h
      | l :: rest2 =>
        have hlt : rest2.length < l := by
          simpa using h
        simp [PathAttribute.try_decode, hext, hlt, ErrorKind.with_bytes]

/-- Witness for the C6 theorem: the 3-byte record [0x40, 0x01, 0x05]
declares a 5-byte value with 0 bytes remaining. -/
theorem path_attribute_overlong_declared_length_err_witness :
    PathAttribute.try_decode [0x40, 0x01, 0x05] =
      .err { kind := .AttributeLengthErr, data := some [0x40, 0x01, 0x05] } :=
  path_attribute_overlong_declared_length_err [0x40, 0x01, 0x05] (by decide)

/-- Claim C9 counterexample: a valid UPDATE body followed by the trailing
byte 33 after the NLRI entry [16, 172, 16] is not silently accepted: the
decode fails with InvalidNetworkField instead of succeeding with the
trailing byte dropped. -/
theorem update_trailing_bytes_not_dropped_counterexample :
    UpdateMessage.try_decode [0, 0, 0, 0, 16, 172, 16, 33] =
      .err { kind := .InvalidNetworkField, data := none } ∧
    ∀ msg rem, UpdateMessage.try_decode [0, 0, 0, 0, 16, 172, 16, 33] ≠ .ok msg rem := by
  refine ⟨by decide, ?_⟩
  intro msg rem hok
  have h0 : UpdateMessage.try_decode [0, 0, 0, 0, 16, 172, 16, 33] =
      .err { kind := .InvalidNetworkField, data := none } := by decide
  rw [h0] at hok
  exact Res.noConfusion hok

/-- Claim C9 amended: the top-level decode has no explicit post-NLRI
consumption check, but the prefix-stream decoder consumes the whole
remainder by construction, so every successful try_decode leaves exactly
zero remaining bytes; trailing bytes that do not form valid prefix entries
make the decode fail rather than being dropped. -/
theorem update_try_decode_ok_consumes_buffer (data : List Nat)
    (msg : UpdateMessage) (rem : List Nat)
    (h : UpdateMessage.try_decode data = .ok msg rem) : rem = [] := by
  rcases data with _ | ⟨b1, rest1⟩
  · exact Res.noConfusion h
  rcases rest1 with _ | ⟨b2, d1⟩
  · exact Res.noConfusion h
  simp only [UpdateMessage.try_decode] at h
  repeat' split at h
  all_goals
    first
    | exact Res.noConfusion h
    | (injection h with hv hr
       subst hr
       exact decode_stream_ok_remaining_nil _ _ _ _ (by assumption))

/-- Witness for the C9 amended theorem at the empty UPDATE body
[0,0,0,0]. -/
theorem update_try_decode_ok_consumes_buffer_witness : ([] : List Nat) = [] :=
  update_try_decode_ok_consumes_buffer [0, 0, 0, 0]
    { withdrawn_routes := [], path_attributes := [], nlri := [] } [] (by decide)

theorem listResize_length (l : List Nat) (n : Nat) : (listResize l n).length = n := by
  simp [listResize]
  omega

theorem maskLast_length (l : List Nat) (i r : Nat) : (maskLast l i r).length = l.length := by
  unfold maskLast
  cases hg : l.get? i <;> simp

theorem getD_replicate_zero (m k : Nat) : (List.replicate m (0 : Nat)).getD k 0 = 0 := by
  rcases Nat.lt_or_ge k m with h | h
  · rw [List.getD_eq_getElem _ _ (by simpa using h)]
    simp
  · exact List.getD_eq_default _ _ (by simpa using h)

theorem listResize_getD_ge (l : List Nat) (n j : Nat) (hj : l.length ≤ j) :
    (listResize l n).getD j 0 = 0 := by
  unfold listResize
  rw [List.getD_append_right _ _ _ _ (by simp; omega)]
  exact getD_replicate_zero _ _

theorem maskLast_getD_ne (l : List Nat) (i r j : Nat) (h : j ≠ i) :
    (maskLast l i r).getD j 0 = l.getD j 0 := by
  unfold maskLast
  cases hg : l.get? i with
  | none => rfl
  | some b =>
    rw [List.getD_eq_getD_get?, List.getD_eq_getD_get?]
    rw [List.get?_eq_getElem?, List.get?_eq_getElem?]
    rw [List.getElem?_set_ne (Ne.symm h)]

theorem maskLast_getD_self (l : List Nat) (i r : Nat) (hi : i < l.length) :
    (maskLast l i r).getD i 0 = (l.getD i 0) &&& ((0xff <<< (8 - r)) % 256) := by
  unfold maskLast
  rw [List.get?_eq_get hi]
  rw [List.getD_eq_getElem _ _ (by simpa using hi)]
  rw [List.getD_eq_getElem _ _ hi]
  simp [List.getElem_set_self]

/-- The u8 mask 0xff << (8 - r) has all bits below position 8 - r clear. -/
theorem mask_testBit_low (r s : Nat) (hr1 : 1 ≤ r) (hr7 : r ≤ 7) (hs : s + r < 8) :
    Nat.testBit ((0xff <<< (8 - r)) % 256) s = false := by
  have hs6 : s ≤ 6 := by omega
  interval_cases s <;> interval_cases r <;> first | omega | decide

theorem shift_and_one_eq_zero (x s : Nat) (h : Nat.testBit x s = false) :
    (x >>> s) &&& 1 = 0 := by
  rw [Nat.and_one_is_mod, Nat.shiftRight_eq_div_pow]
  rw [Nat.testBit_to_div_mod] at h
  simp at h
  omega

/-- The address bytes built by one decode_stream iteration (copy byte_len
bytes, resize to 4, mask the last partial byte) have length exactly 4 and
all bits at positions at least bit_len clear. -/
theorem prefix_bytes_spec (l : List Nat) (bit_len : Nat)
    (hl : l.length = (bit_len + 7) / 8) (h32 : bit_len ≤ 32) :
    (if bit_len % 8 ≠ 0
        then maskLast (listResize l 4) ((bit_len + 7) / 8 - 1) (bit_len % 8)
        else listResize l 4).length = 4 ∧
    ∀ i, bit_len ≤ i →
      prefixBit (if bit_len % 8 ≠ 0
        then maskLast (listResize l 4) ((bit_len + 7) / 8 - 1) (bit_len % 8)
        else listResize l 4) i = 0 := by
  constructor
  · by_cases hr : bit_len % 8 = 0 <;>
      simp [hr, maskLast_length, listResize_length]
  · intro i hi
    by_cases hr : bit_len % 8 = 0
    · simp only [hr, ne_eq, not_true_eq_false, if_false, ite_false]
      have hj : l.length ≤ i / 8 := by rw [hl]; omega
      rw [prefixBit, listResize_getD_ge l 4 _ hj]
      simp
    · simp only [ne_eq, hr, not_false_eq_true, if_true, ite_true]
      by_cases hjk : i / 8 = (bit_len + 7) / 8 - 1
      · rw [prefixBit, hjk,
          maskLast_getD_self _ _ _ (by rw [listResize_length]; omega)]
        apply shift_and_one_eq_zero
        rw [Nat.testBit_land]
        rw [mask_testBit_low (bit_len % 8) (7 - i % 8) (by omega) (by omega) (by omega)]
        simp
      · rw [prefixBit, maskLast_getD_ne _ _ _ _ hjk]
        have hj : l.length ≤ i / 8 := by rw [hl]; omega
        rw [listResize_getD_ge l 4 _ hj]
        simp

/-- Every prefix in a successful run of the decode_stream loop with
addr_len 4 has a 4-byte address with all bits at positions at least its
bit length clear. -/
theorem decodeStreamLoop_ok_mem (e : Error) :
    ∀ (fuel : Nat) (data : List Nat) (ps : List IpAddrPrefix) (rem : List Nat),
      decodeStreamLoop e 4 fuel data = .ok ps rem →
      ∀ p ∈ ps, p.prefixBytes.length = 4 ∧
        ∀ i, p.length ≤ i → prefixBit p.prefixBytes i = 0 := by
  intro fuel
  induction fuel with
  | zero =>
    intro data ps rem h p hp
    cases data with
    | nil =>
      injection h with h1 h2
      subst h1
      exact absurd hp (List.not_mem_nil p)
    | cons b bs => exact Res.noConfusion h
  | succ n ih =>
    intro data ps rem h p hp
    cases data with
    | nil =>
      injection h with h1 h2
      subst h1
      exact absurd hp (List.not_mem_nil p)
    | cons bit_len rest =>
      simp only [decodeStreamLoop] at h
      by_cases h1 : rest.length < (bit_len + 7) / 8
      · rw [if_pos h1] at h
        exact Res.noConfusion h
      rw [if_neg h1] at h
      by_cases h2 : 4 * 8 < bit_len
      · rw [if_pos h2] at h
        exact Res.noConfusion h
      rw [if_neg h2] at h
      cases hrec : decodeStreamLoop e 4 n (rest.drop ((bit_len + 7) / 8)) with
      | ok ps' rem' =>
        simp only [hrec] at h
        injection h with hcons hrem
        subst hcons
        rcases List.mem_cons.mp hp with hpe | hpm
        · subst hpe
          have hl : (rest.take ((bit_len + 7) / 8)).length = (bit_len + 7) / 8 := by
            rw [List.length_take]
            omega
          have h32 : bit_len ≤ 32 := by omega
          simpa using prefix_bytes_spec (rest.take ((bit_len + 7) / 8)) bit_len hl h32
        · exact ih _ _ _ hrec p hpm
      | err e2 =>
        simp only [hrec] at h
        exact Res.noConfusion h
      | panic =>
        simp only [hrec] at h
        exact Res.noConfusion h

/-- Claim C2: every Prefix emitted by a successful decode_stream call with
addr_len 4 has address bytes of length exactly 4, and every bit at
position at least bit_length is 0 (partial-byte low bits are masked off,
trailing bytes are zero). -/
theorem decode_stream_prefix_invariant (data : List Nat)
    (ps : List IpAddrPrefix) (rem : List Nat)
    (h : IpAddrPrefix.decode_stream data 4 = .ok ps rem)
    (p : IpAddrPrefix) (hp : p ∈ ps) :
    p.prefixBytes.length = 4 ∧ ∀ i, p.length ≤ i → prefixBit p.prefixBytes i = 0 :=
  decodeStreamLoop_ok_mem _ data.length data ps rem h p hp

/-- Witness for the C2 theorem: the entry [12, 171, 205] decodes to the
prefix 171.192.0.0/12 whose byte 205 was masked to 192; its bit 12 is 0. -/
theorem decode_stream_prefix_invariant_witness :
    ({ length := 12, prefixBytes := [171, 192, 0, 0] } : IpAddrPrefix).prefixBytes.length = 4 ∧
    prefixBit [171, 192, 0, 0] 12 = 0 := by
  have h := decode_stream_prefix_invariant [12, 171, 205]
    [{ length := 12, prefixBytes := [171, 192, 0, 0] }] []
    (by decide) { length := 12, prefixBytes := [171, 192, 0, 0] } (by simp)
  exact ⟨h.1, h.2 12 (le_refl 12)⟩

end BgpMonitor
